import Mathlib

/-!
Shallow embedding of the rt-audit taskset generator
(`generate_taskset.py` and `generate_json.py`).

Python floats are modelled as real numbers (the spec's claims are stated
"exactly in real arithmetic"); the global `random` source is modelled as an
explicit stream `s : ℕ → ℝ` of uniform draws in `[0, 1)`, consumed in call
order, together with an explicit count of consumed draws.
-/

namespace RTAudit

/-- The inner loop of `uunifast` (`generate_taskset.py`, lines 30-38).
`sum_u` is the running remaining utilization; for each loop index
`i ∈ [1, n)` the code computes `next_sum_u = sum_u * d i ** (1.0 / (n - i))`
(here inlined), emits `sum_u - next_sum_u` and recurses with `next_sum_u`;
after the loop the final `sum_u` is appended.  `d i` is the value returned
by the `random.random()` call made at loop index `i`. -/
noncomputable def uunifastGo (n : ℕ) (d : ℕ → ℝ) (i : ℕ) (sum_u : ℝ) : List ℝ :=
  if i < n then
    (sum_u - sum_u * d i ^ ((1 : ℝ) / ((n : ℝ) - (i : ℝ)))) ::
      uunifastGo n d (i + 1) (sum_u * d i ^ ((1 : ℝ) / ((n : ℝ) - (i : ℝ))))
  else [sum_u]
  termination_by n - i

/-- The UUniFast algorithm (`generate_taskset.py`, lines 18-38): distributes
`u_total` over `n` tasks, consuming the draws `d 1, …, d (n-1)`. -/
noncomputable def uunifast (n : ℕ) (u_total : ℝ) (d : ℕ → ℝ) : List ℝ :=
  uunifastGo n d 1 u_total

lemma uunifastGo_sum (n : ℕ) (d : ℕ → ℝ) :
    ∀ k i sum_u, n - i ≤ k → (uunifastGo n d i sum_u).sum = sum_u := by
  intro k
  induction k with
  | zero =>
    intro i sum_u h
    have hni : ¬ i < n := by omega
    rw [uunifastGo, if_neg hni, List.sum_singleton]
  | succ k ih =>
    intro i sum_u h
    by_cases hin : i < n
    · rw [uunifastGo, if_pos hin, List.sum_cons, ih (i + 1) _ (by omega)]
      ring
    · rw [uunifastGo, if_neg hin, List.sum_singleton]

lemma uunifast_sum (n : ℕ) (u_total : ℝ) (d : ℕ → ℝ) :
    (uunifast n u_total d).sum = u_total :=
  uunifastGo_sum n d (n - 1) 1 u_total (by omega)

lemma uunifastGo_length (n : ℕ) (d : ℕ → ℝ) :
    ∀ k i sum_u, n - i ≤ k → (uunifastGo n d i sum_u).length = n - i + 1 := by
  intro k
  induction k with
  | zero =>
    intro i sum_u h
    have hni : ¬ i < n := by omega
    rw [uunifastGo, if_neg hni]
    simp only [List.length_singleton]
    omega
  | succ k ih =>
    intro i sum_u h
    by_cases hin : i < n
    · rw [uunifastGo, if_pos hin]
      simp only [List.length_cons, ih (i + 1) _ (by omega)]
      omega
    · rw [uunifastGo, if_neg hin]
      simp only [List.length_singleton]
      omega

lemma uunifast_length (n : ℕ) (u_total : ℝ) (d : ℕ → ℝ) (hn : 1 ≤ n) :
    (uunifast n u_total d).length = n := by
  have := uunifastGo_length n d (n - 1) 1 u_total (by omega)
  rw [uunifast, this]
  omega

lemma uunifastGo_nonneg (n : ℕ) (d : ℕ → ℝ) (hd : ∀ j, 0 ≤ d j ∧ d j ≤ 1) :
    ∀ k i sum_u, n - i ≤ k → 0 ≤ sum_u →
      ∀ u ∈ uunifastGo n d i sum_u, 0 ≤ u := by
  intro k
  induction k with
  | zero =>
    intro i sum_u h hs u hu
    have hni : ¬ i < n := by omega
    rw [uunifastGo, if_neg hni, List.mem_singleton] at hu
    exact hu ▸ hs
  | succ k ih =>
    intro i sum_u h hs u hu
    by_cases hin : i < n
    · rw [uunifastGo, if_pos hin, List.mem_cons] at hu
      have hexp : 0 ≤ (1 : ℝ) / ((n : ℝ) - (i : ℝ)) := by
        have hlt : (i : ℝ) < (n : ℝ) := by exact_mod_cast hin
        exact div_nonneg zero_le_one (by linarith)
      have hpow0 : 0 ≤ d i ^ ((1 : ℝ) / ((n : ℝ) - (i : ℝ))) :=
        Real.rpow_nonneg (hd i).1 _
      have hpow1 : d i ^ ((1 : ℝ) / ((n : ℝ) - (i : ℝ))) ≤ 1 :=
        Real.rpow_le_one (hd i).1 (hd i).2 hexp
      have hnext0 : 0 ≤ sum_u * d i ^ ((1 : ℝ) / ((n : ℝ) - (i : ℝ))) :=
        mul_nonneg hs hpow0
      rcases hu with hu | hu
      · have hle : sum_u * d i ^ ((1 : ℝ) / ((n : ℝ) - (i : ℝ))) ≤ sum_u := by
          calc sum_u * d i ^ ((1 : ℝ) / ((n : ℝ) - (i : ℝ)))
              ≤ sum_u * 1 := by exact mul_le_mul_of_nonneg_left hpow1 hs
            _ = sum_u := mul_one sum_u
        rw [hu]
        linarith
      · exact ih (i + 1) _ (by omega) hnext0 u hu
    · rw [uunifastGo, if_neg hin, List.mem_singleton] at hu
      exact hu ▸ hs

lemma uunifast_nonneg (n : ℕ) (u_total : ℝ) (d : ℕ → ℝ)
    (hd : ∀ j, 0 ≤ d j ∧ d j ≤ 1) (hU : 0 ≤ u_total) :
    ∀ u ∈ uunifast n u_total d, 0 ≤ u :=
  uunifastGo_nonneg n d hd (n - 1) 1 u_total (by omega) hU

lemma uunifastGo_congr (n : ℕ) (d d' : ℕ → ℝ) :
    ∀ k i sum_u, n - i ≤ k → (∀ j, i ≤ j → j < n → d j = d' j) →
      uunifastGo n d i sum_u = uunifastGo n d' i sum_u := by
  intro k
  induction k with
  | zero =>
    intro i sum_u h hdd
    have hni : ¬ i < n := by omega
    rw [uunifastGo, if_neg hni, uunifastGo, if_neg hni]
  | succ k ih =>
    intro i sum_u h hdd
    conv_lhs => rw [uunifastGo]
    conv_rhs => rw [uunifastGo]
    by_cases hin : i < n
    · rw [if_pos hin, if_pos hin, hdd i le_rfl hin,
        ih (i + 1) _ (by omega) (fun j hj hj2 => hdd j (by omega) hj2)]
    · rw [if_neg hin, if_neg hin]

lemma uunifast_congr (n : ℕ) (u_total : ℝ) (d d' : ℕ → ℝ)
    (hdd : ∀ j, 1 ≤ j → j < n → d j = d' j) :
    uunifast n u_total d = uunifast n u_total d' :=
  uunifastGo_congr n d d' (n - 1) 1 u_total (by omega) hdd

/-- Evaluation of `uunifast` on a single task: the loop body never runs. -/
lemma uunifast_one (u_total : ℝ) (d : ℕ → ℝ) : uunifast 1 u_total d = [u_total] := by
  rw [uunifast, uunifastGo, if_neg (by omega)]

/-- Evaluation of `uunifast` on two tasks: one draw, exponent `1/(2-1) = 1`. -/
lemma uunifast_two (u_total : ℝ) (d : ℕ → ℝ) :
    uunifast 2 u_total d = [u_total - u_total * d 1, u_total * d 1] := by
  rw [uunifast, uunifastGo, if_pos (by omega), uunifastGo, if_neg (by omega)]
  norm_num [Real.rpow_one]

open Classical

/-- The two failure paths of `generate_taskset` (`generate_taskset.py`):
`infeasible` models the "Impossible constraint" diagnostic and `return None`
at lines 75-82, `exhausted` the "Failed to generate valid utilizations"
diagnostic and `return None` at lines 95-101.  The two paths print distinct
messages; both return the Python sentinel `None`. -/
inductive GenError where
  | infeasible : GenError
  | exhausted : GenError

/-- The inputs of `generate_taskset` (`generate_taskset.py`, line 40).
`period_gran_ms` is accepted by the Python function but never read in its
body; `lock_pages`, `ftrace` and `verbose` only affect constant JSON fields
and logging and are omitted. -/
structure GenParams where
  num_cpus : ℕ
  num_tasks : ℕ
  period_min_ms : ℕ
  period_max_ms : ℕ
  period_gran_ms : ℕ
  max_task_util : ℝ
  total_utilization : ℝ
  system_overhead : ℝ
  event_type : String

/-- The per-task JSON object built at lines 142-172 of `generate_taskset.py`:
the numeric and structural fields of `task_config`.  `phase_run` and
`phase_runtime` are the optional `"run"` / `"runtime"` workload-event keys of
the single phase; `phase_loop` is its `"loop"` value. -/
structure TaskConfig where
  dl_runtime : ℤ
  dl_period : ℕ
  dl_deadline : ℕ
  cpus : List ℕ
  phase_loop : ℤ
  phase_run : Option ℤ
  phase_runtime : Option ℤ
  timer_period : ℕ

/-- Modelled abstraction of Python's `random.randint(a, b)`: it consumes one
uniform draw `r ∈ [0, 1)` from the stream and maps it to an integer in the
inclusive range `[a, b]`. -/
noncomputable def randint (a b : ℕ) (r : ℝ) : ℕ :=
  a + ⌊r * ((b : ℝ) - (a : ℝ) + 1)⌋₊

/-- The body of the per-task loop of `generate_taskset`
(`generate_taskset.py`, lines 107-172) for one task: `utilization` is the
pre-computed UUniFast utilization of the task and `r` the draw consumed by
the `random.randint(period_min_ms, period_max_ms)` call. -/
noncomputable def buildTask (p : GenParams) (utilization r : ℝ) : TaskConfig :=
  let period_us : ℕ := randint p.period_min_ms p.period_max_ms r * 1000
  let dl_runtime_us : ℤ := ⌊utilization * (period_us : ℝ)⌋
  let raw_runtime_us : ℤ := ⌊(dl_runtime_us : ℝ) * (1 - p.system_overhead)⌋
  let actual_runtime_us : ℤ := if raw_runtime_us < 10 then 10 else raw_runtime_us
  { dl_runtime := dl_runtime_us
    dl_period := period_us
    dl_deadline := period_us
    cpus := List.range p.num_cpus
    phase_loop := -1
    phase_run := if p.event_type = "run" then some actual_runtime_us else none
    phase_runtime :=
      if p.event_type = "run" then none
      else if p.event_type = "runtime" then some actual_runtime_us
      else some actual_runtime_us
    timer_period := period_us }

/-- The rejection-sampling loop of `generate_taskset`
(`generate_taskset.py`, lines 85-93): starting from loop state
`(attempts, pos)` where `pos` is the number of draws already consumed, it
returns the final `(attempts, pos, task_utils)`.  Each iteration increments
`attempts`, draws one full UUniFast vector (consuming `n - 1` draws, so the
i-th `random.random()` of the call reads stream position `pos + i - 1`) and
breaks when every component is `≤ maxU`.  When the loop exhausts its 1000
iterations without a break, the last (rejected) vector is dead and is
modelled as `[]`. -/
noncomputable def retryLoop (n : ℕ) (u_total maxU : ℝ) (s : ℕ → ℝ)
    (attempts pos : ℕ) : ℕ × ℕ × List ℝ :=
  if attempts < 1000 then
    if ∀ u ∈ uunifast n u_total (fun i => s (pos + i - 1)), u ≤ maxU then
      (attempts + 1, pos + (n - 1), uunifast n u_total (fun i => s (pos + i - 1)))
    else retryLoop n u_total maxU s (attempts + 1) (pos + (n - 1))
  else (attempts, pos, [])
  termination_by 1000 - attempts

/-- The rejection-sampling loop as entered by `generate_taskset`: zero prior
attempts and zero consumed draws. -/
noncomputable def retryResult (p : GenParams) (s : ℕ → ℝ) : ℕ × ℕ × List ℝ :=
  retryLoop p.num_tasks p.total_utilization p.max_task_util s 0 0

/-- `generate_taskset` (`generate_taskset.py`, lines 40-178), returning the
list of per-task configurations (or the error kind of the diagnostic printed
before `return None`) together with the number of random draws consumed.
Mirrors the source order: infeasibility check (lines 74-82), rejection loop
(lines 85-93), cap check `attempts >= max_attempts` (lines 95-101), then the
per-task loop consuming one `randint` draw per task in index order. -/
noncomputable def generate_taskset (p : GenParams) (s : ℕ → ℝ) :
    Except GenError (List TaskConfig) × ℕ :=
  if p.total_utilization / (p.num_tasks : ℝ) > p.max_task_util then
    (.error .infeasible, 0)
  else if 1000 ≤ (retryResult p s).1 then
    (.error .exhausted, (retryResult p s).2.1)
  else
    (.ok ((List.range p.num_tasks).map fun i =>
      buildTask p ((retryResult p s).2.2.getD i 0) (s ((retryResult p s).2.1 + i))),
     (retryResult p s).2.1 + p.num_tasks)

/-- The per-task JSON object built by `generate_json`
(`generate_json.py`, lines 77-108).  There `dl-runtime` and `dl-period` are
the floats parsed from the input line, not integers. -/
structure JTaskConfig where
  dl_runtime : ℝ
  dl_period : ℝ
  dl_deadline : ℝ
  cpus : List ℕ
  phase_loop : ℤ
  phase_run : Option ℤ
  phase_runtime : Option ℤ
  timer_period : ℝ

/-- The loop body of `generate_json` (`generate_json.py`, lines 48-108) for
one parsed line `(c, p, d)`: `period_us = p * 1.0`, `dl_runtime_us = c * 1.0`,
then the overhead-and-floor adjustment and the event-type dispatch, exactly
as in `generate_taskset`. -/
noncomputable def jsonTask (system_overhead : ℝ) (event_type : String)
    (line : ℝ × ℝ × ℝ) : JTaskConfig :=
  let period_us : ℝ := line.2.1 * 1
  let dl_runtime_us : ℝ := line.1 * 1
  let raw_runtime_us : ℤ := ⌊dl_runtime_us * (1 - system_overhead)⌋
  let actual_runtime_us : ℤ := if raw_runtime_us < 10 then 10 else raw_runtime_us
  { dl_runtime := dl_runtime_us
    dl_period := period_us
    dl_deadline := period_us
    cpus := []
    phase_loop := -1
    phase_run := if event_type = "run" then some actual_runtime_us else none
    phase_runtime :=
      if event_type = "run" then none
      else if event_type = "runtime" then some actual_runtime_us
      else some actual_runtime_us
    timer_period := period_us }

/-- `generate_json` (`generate_json.py`, lines 15-114) on an already-parsed
taskset: one `(computation_time, period, deadline)` triple per input line.
The `cpus` affinity list (constant `list(range(num_cpus))`) is dropped from
this model's per-line parameters and set to `[]`. -/
noncomputable def generate_json (taskset : List (ℝ × ℝ × ℝ))
    (system_overhead : ℝ) (event_type : String) : List JTaskConfig :=
  taskset.map (jsonTask system_overhead event_type)

/-- The failure kinds of `main` in `generate_taskset.py`:
`unsupportedDistribution` and `unsupportedGranularity` model the
`sys.exit(-1)` paths at lines 293-299, `genFailed` wraps a failure of
`generate_taskset`. -/
inductive MainError where
  | unsupportedDistribution : MainError
  | unsupportedGranularity : MainError
  | genFailed : GenError → MainError

/-- The tail of `main` (`generate_taskset.py`, lines 293-344): validate the
configured period distribution and granularity, in source order, and only
then seed the generator and call `generate_taskset`.  Returns the outcome
together with the number of random draws consumed. -/
noncomputable def mainRun (period_distribution : String) (period_gran : ℤ)
    (p : GenParams) (s : ℕ → ℝ) : Except MainError (List TaskConfig) × ℕ :=
  if period_distribution ≠ "unif" then (.error .unsupportedDistribution, 0)
  else if period_gran ≠ 1 then (.error .unsupportedGranularity, 0)
  else
    match generate_taskset p s with
    | (.error e, k) => (.error (.genFailed e), k)
    | (.ok ts, k) => (.ok ts, k)

lemma retryLoop_pos_le_aux (n : ℕ) (U maxU : ℝ) (s : ℕ → ℝ) :
    ∀ k a pos, 1000 - a ≤ k → pos ≤ (retryLoop n U maxU s a pos).2.1 := by
  intro k
  induction k with
  | zero =>
    intro a pos h
    rw [retryLoop, if_neg (by omega)]
  | succ k ih =>
    intro a pos h
    by_cases ha : a < 1000
    · rw [retryLoop, if_pos ha]
      split_ifs with hc
      · simp
      · exact le_trans (Nat.le_add_right pos (n - 1)) (ih (a + 1) (pos + (n - 1)) (by omega))
    · rw [retryLoop, if_neg ha]

lemma retryLoop_pos_le (n : ℕ) (U maxU : ℝ) (s : ℕ → ℝ) (a pos : ℕ) :
    pos ≤ (retryLoop n U maxU s a pos).2.1 :=
  retryLoop_pos_le_aux n U maxU s 1000 a pos (by omega)

lemma retryLoop_shape_aux (n : ℕ) (U maxU : ℝ) (s : ℕ → ℝ) :
    ∀ k a, 1000 - a ≤ k → ∃ A utils,
      retryLoop n U maxU s a (a * (n - 1)) = (A, A * (n - 1), utils) := by
  intro k
  induction k with
  | zero =>
    intro a h
    refine ⟨a, [], ?_⟩
    rw [retryLoop, if_neg (by omega)]
  | succ k ih =>
    intro a h
    by_cases ha : a < 1000
    · rw [retryLoop, if_pos ha]
      split_ifs with hc
      · exact ⟨a + 1, _, by rw [Nat.succ_mul]⟩
      · have hpos : a * (n - 1) + (n - 1) = (a + 1) * (n - 1) := by ring
        rw [hpos]
        exact ih (a + 1) (by omega)
    · refine ⟨a, [], ?_⟩
      rw [retryLoop, if_neg ha]

lemma retryLoop_ok_utils_aux (n : ℕ) (U maxU : ℝ) (s : ℕ → ℝ) :
    ∀ k a pos, 1000 - a ≤ k →
      ∀ u ∈ (retryLoop n U maxU s a pos).2.2, u ≤ maxU := by
  intro k
  induction k with
  | zero =>
    intro a pos h
    rw [retryLoop, if_neg (by omega)]
    simp
  | succ k ih =>
    intro a pos h
    by_cases ha : a < 1000
    · rw [retryLoop, if_pos ha]
      split_ifs with hc
      · exact hc
      · exact ih (a + 1) (pos + (n - 1)) (by omega)
    · rw [retryLoop, if_neg ha]
      simp

lemma retryLoop_ok_utils (n : ℕ) (U maxU : ℝ) (s : ℕ → ℝ) (a pos : ℕ) :
    ∀ u ∈ (retryLoop n U maxU s a pos).2.2, u ≤ maxU :=
  retryLoop_ok_utils_aux n U maxU s 1000 a pos (by omega)

lemma retryLoop_src_aux (n : ℕ) (U maxU : ℝ) (s : ℕ → ℝ) :
    ∀ k a pos, 1000 - a ≤ k → (retryLoop n U maxU s a pos).1 < 1000 →
      ∃ q, pos ≤ q ∧
        (retryLoop n U maxU s a pos).2.2 = uunifast n U (fun i => s (q + i - 1)) := by
  intro k
  induction k with
  | zero =>
    intro a pos h hlt
    rw [retryLoop, if_neg (by omega)] at hlt
    omega
  | succ k ih =>
    intro a pos h hlt
    by_cases ha : a < 1000
    · rw [retryLoop, if_pos ha] at hlt ⊢
      split_ifs at hlt ⊢ with hc
      · exact ⟨pos, le_rfl, rfl⟩
      · obtain ⟨q, hq, hsrc⟩ := ih (a + 1) (pos + (n - 1)) (by omega) hlt
        exact ⟨q, by omega, hsrc⟩
    · rw [retryLoop, if_neg ha] at hlt
      omega

lemma retryLoop_congr_aux (n : ℕ) (U maxU : ℝ) (s s' : ℕ → ℝ) :
    ∀ k a pos, 1000 - a ≤ k →
      (∀ j, j < (retryLoop n U maxU s a pos).2.1 → s j = s' j) →
      retryLoop n U maxU s a pos = retryLoop n U maxU s' a pos := by
  intro k
  induction k with
  | zero =>
    intro a pos h hagree
    rw [retryLoop, if_neg (by omega), retryLoop, if_neg (by omega)]
  | succ k ih =>
    intro a pos h hagree
    by_cases ha : a < 1000
    · have hres : pos + (n - 1) ≤ (retryLoop n U maxU s a pos).2.1 := by
        rw [retryLoop, if_pos ha]
        split_ifs with hc
        · simp
        · exact retryLoop_pos_le n U maxU s (a + 1) (pos + (n - 1))
      have hu : uunifast n U (fun i => s (pos + i - 1)) =
          uunifast n U (fun i => s' (pos + i - 1)) := by
        apply uunifast_congr
        intro i hi1 hi2
        apply hagree
        omega
      conv_lhs => rw [retryLoop]
      conv_rhs => rw [retryLoop]
      rw [if_pos ha, if_pos ha, hu]
      split_ifs with hc
      · rfl
      · have hceq : retryLoop n U maxU s a pos =
            retryLoop n U maxU s (a + 1) (pos + (n - 1)) := by
          rw [retryLoop, if_pos ha, if_neg (hu.symm ▸ hc)]
        apply ih (a + 1) (pos + (n - 1)) (by omega)
        intro j hj
        exact hagree j (by rw [hceq]; exact hj)
    · rw [retryLoop, if_neg ha, retryLoop, if_neg ha]

lemma retryResult_shape (p : GenParams) (s : ℕ → ℝ) :
    ∃ A utils, retryResult p s = (A, A * (p.num_tasks - 1), utils) := by
  have h := retryLoop_shape_aux p.num_tasks p.total_utilization p.max_task_util s
    1000 0 (by omega)
  simpa [retryResult] using h

/-- Successful runs of `generate_taskset`: the loop broke with fewer than
1000 attempts, the draw count is the loop's count plus one period draw per
task, and the emitted tasks are built from the accepted vector with the
period draws read after all utilization draws. -/
lemma gen_ok_shape (p : GenParams) (s : ℕ → ℝ) (tasks : List TaskConfig)
    (h : (generate_taskset p s).1 = .ok tasks) :
    (retryResult p s).1 < 1000 ∧
    (generate_taskset p s).2 = (retryResult p s).2.1 + p.num_tasks ∧
    tasks = (List.range p.num_tasks).map fun i =>
      buildTask p ((retryResult p s).2.2.getD i 0) (s ((retryResult p s).2.1 + i)) := by
  unfold generate_taskset at h ⊢
  by_cases h1 : p.total_utilization / (p.num_tasks : ℝ) > p.max_task_util
  · rw [if_pos h1] at h
    exact absurd h (by simp)
  · rw [if_neg h1] at h ⊢
    by_cases h2 : 1000 ≤ (retryResult p s).1
    · rw [if_pos h2] at h
      exact absurd h (by simp)
    · rw [if_neg h2] at h ⊢
      exact ⟨by omega, rfl, (Except.ok.inj h).symm⟩

/-- A concrete all-zero draw stream, used to evaluate the model. -/
noncomputable def sW : ℕ → ℝ := fun _ => 0

/-- Concrete generator inputs: one task, total utilization `1/2`, ceiling
`4/5`, period range `[10, 10]` ms, overhead `0.02`. -/
noncomputable def pW : GenParams :=
  { num_cpus := 1
    num_tasks := 1
    period_min_ms := 10
    period_max_ms := 10
    period_gran_ms := 1
    max_task_util := 4 / 5
    total_utilization := 1 / 2
    system_overhead := 1 / 50
    event_type := "runtime" }

/-- The task emitted by `generate_taskset` on `pW` with stream `sW`. -/
def tW : TaskConfig :=
  { dl_runtime := 5000
    dl_period := 10000
    dl_deadline := 10000
    cpus := [0]
    phase_loop := -1
    phase_run := none
    phase_runtime := some 4900
    timer_period := 10000 }

lemma retryW : retryResult pW sW = (1, 0, [(1 / 2 : ℝ)]) := by
  have h1 : uunifast pW.num_tasks pW.total_utilization (fun i => sW (0 + i - 1)) =
      [(1 / 2 : ℝ)] := by
    rw [show pW.num_tasks = 1 from rfl,
      show pW.total_utilization = (1 / 2 : ℝ) from rfl, uunifast_one]
  rw [retryResult, retryLoop, if_pos (by norm_num), h1,
    if_pos (by
      intro u hu
      rw [List.mem_singleton] at hu
      rw [hu, show pW.max_task_util = (4 / 5 : ℝ) from rfl]
      norm_num)]
  rw [show pW.num_tasks = 1 from rfl]

lemma buildW : buildTask pW ((1 : ℝ) / 2) 0 = tW := by
  have hr : randint pW.period_min_ms pW.period_max_ms 0 = 10 := by
    rw [randint, show pW.period_min_ms = 10 from rfl, show pW.period_max_ms = 10 from rfl]
    norm_num
  have hrun : (pW.event_type = "run") = False :=
    eq_false (by rw [show pW.event_type = "runtime" from rfl]; decide)
  have hrt : (pW.event_type = "runtime") = True :=
    eq_true rfl
  simp only [buildTask, hr, hrun, hrt, if_false, if_true]
  have hdl : ⌊(1 : ℝ) / 2 * ((10 * 1000 : ℕ) : ℝ)⌋ = 5000 := by norm_num
  rw [hdl, show pW.system_overhead = (1 / 50 : ℝ) from rfl]
  have hraw : ⌊((5000 : ℤ) : ℝ) * (1 - 1 / 50)⌋ = 4900 := by norm_num
  rw [hraw, if_neg (by norm_num), show pW.num_cpus = 1 from rfl,
    show List.range 1 = [0] from rfl, tW]

lemma genW : generate_taskset pW sW = (.ok [tW], 1) := by
  rw [generate_taskset,
    if_neg (by
      rw [show pW.total_utilization = (1 / 2 : ℝ) from rfl,
        show pW.num_tasks = 1 from rfl, show pW.max_task_util = (4 / 5 : ℝ) from rfl]
      norm_num),
    if_neg (by rw [retryW]; norm_num), retryW,
    show pW.num_tasks = 1 from rfl, show List.range 1 = [0] from rfl]
  simp only [List.map_cons, List.map_nil]
  rw [show ([(1 / 2 : ℝ)].getD 0 0) = (1 : ℝ) / 2 from rfl,
    show sW (0 + 0) = 0 from rfl, buildW]

/-- A draw stream whose first 999 draws are `1/10` (each yields the vector
`[9/10, 1/10]`, rejected by a ceiling of `4/5`) and whose 1000th draw is
`1/2` (yielding the valid vector `[1/2, 1/2]`). -/
noncomputable def sBad : ℕ → ℝ := fun j => if j < 999 then 1 / 10 else 1 / 2

/-- Inputs for the retry-cap boundary: two tasks, total utilization `1`,
ceiling `4/5` (feasible, since `1/2 ≤ 4/5`). -/
noncomputable def pBad : GenParams :=
  { num_cpus := 1
    num_tasks := 2
    period_min_ms := 10
    period_max_ms := 10
    period_gran_ms := 1
    max_task_util := 4 / 5
    total_utilization := 1
    system_overhead := 1 / 50
    event_type := "runtime" }

lemma retryBad : ∀ k, k ≤ 999 →
    retryLoop 2 1 (4 / 5) sBad (999 - k) (999 - k) = (1000, 1000, [(1 / 2 : ℝ), 1 / 2]) := by
  intro k
  induction k with
  | zero =>
    intro _
    rw [retryLoop, if_pos (by norm_num)]
    have hu : uunifast 2 1 (fun i => sBad (999 - 0 + i - 1)) = [(1 / 2 : ℝ), 1 / 2] := by
      simp only [uunifast_two, sBad]
      rw [if_neg (by norm_num)]
      norm_num
    rw [hu, if_pos (by
      intro u hu2
      rcases List.mem_cons.mp hu2 with h | h
      · rw [h]; norm_num
      · rw [List.mem_singleton] at h; rw [h]; norm_num)]
  | succ k ih =>
    intro hk
    rw [retryLoop, if_pos (by omega)]
    have hu : uunifast 2 1 (fun i => sBad (999 - (k + 1) + i - 1)) =
        [(9 / 10 : ℝ), 1 / 10] := by
      simp only [uunifast_two, sBad]
      rw [if_pos (by omega)]
      norm_num
    rw [hu, if_neg (by
      intro hall
      have h910 := hall (9 / 10 : ℝ) (by simp)
      norm_num at h910)]
    have harith : 999 - (k + 1) + 1 = 999 - k := by omega
    rw [harith]
    exact ih (by omega)

lemma retryResultBad : retryResult pBad sBad = (1000, 1000, [(1 / 2 : ℝ), 1 / 2]) := by
  have h := retryBad 999 le_rfl
  rw [retryResult, show pBad.num_tasks = 2 from rfl,
    show pBad.total_utilization = (1 : ℝ) from rfl,
    show pBad.max_task_util = (4 / 5 : ℝ) from rfl]
  exact h

/-- A constant draw stream `1/2`, used for the zero-computation-time run. -/
noncomputable def s8 : ℕ → ℝ := fun _ => 1 / 2

/-- Inputs giving per-task utilization `1/4000` and period `1` ms, so that
`floor(u * period) = floor(0.25) = 0`. -/
noncomputable def p8 : GenParams :=
  { num_cpus := 1
    num_tasks := 2
    period_min_ms := 1
    period_max_ms := 1
    period_gran_ms := 1
    max_task_util := 4 / 5
    total_utilization := 1 / 2000
    system_overhead := 1 / 50
    event_type := "runtime" }

/-- The task emitted twice by `generate_taskset` on `p8` with stream `s8`:
its `dl-runtime` is zero. -/
def t8 : TaskConfig :=
  { dl_runtime := 0
    dl_period := 1000
    dl_deadline := 1000
    cpus := [0]
    phase_loop := -1
    phase_run := none
    phase_runtime := some 10
    timer_period := 1000 }

lemma retry8 : retryResult p8 s8 = (1, 1, [(1 / 4000 : ℝ), 1 / 4000]) := by
  rw [retryResult, show p8.num_tasks = 2 from rfl,
    show p8.total_utilization = (1 / 2000 : ℝ) from rfl,
    show p8.max_task_util = (4 / 5 : ℝ) from rfl]
  rw [retryLoop, if_pos (by norm_num)]
  have hu : uunifast 2 (1 / 2000) (fun i => s8 (0 + i - 1)) =
      [(1 / 4000 : ℝ), 1 / 4000] := by
    simp only [uunifast_two, s8]
    norm_num
  rw [hu, if_pos (by
    intro u hu2
    rcases List.mem_cons.mp hu2 with h | h
    · rw [h]; norm_num
    · rw [List.mem_singleton] at h; rw [h]; norm_num)]

lemma build8 : buildTask p8 ((1 : ℝ) / 4000) (1 / 2) = t8 := by
  have hr : randint p8.period_min_ms p8.period_max_ms (1 / 2) = 1 := by
    rw [randint, show p8.period_min_ms = 1 from rfl, show p8.period_max_ms = 1 from rfl]
    have hx : (1 / 2 : ℝ) * ((1 : ℕ) - ((1 : ℕ) : ℝ) + 1) = 1 / 2 := by norm_num
    rw [hx, Nat.floor_eq_zero.mpr (by norm_num)]
  have hrun : (p8.event_type = "run") = False :=
    eq_false (by rw [show p8.event_type = "runtime" from rfl]; decide)
  have hrt : (p8.event_type = "runtime") = True := eq_true rfl
  simp only [buildTask, hr, hrun, hrt, if_false, if_true]
  have hdl : ⌊(1 : ℝ) / 4000 * ((1 * 1000 : ℕ) : ℝ)⌋ = 0 := by norm_num
  rw [hdl, show p8.system_overhead = (1 / 50 : ℝ) from rfl]
  have hraw : ⌊((0 : ℤ) : ℝ) * (1 - 1 / 50)⌋ = 0 := by norm_num
  rw [hraw, if_pos (by norm_num), show p8.num_cpus = 1 from rfl,
    show List.range 1 = [0] from rfl, t8]

lemma gen8 : generate_taskset p8 s8 = (.ok [t8, t8], 3) := by
  rw [generate_taskset,
    if_neg (by
      rw [show p8.total_utilization = (1 / 2000 : ℝ) from rfl,
        show p8.num_tasks = 2 from rfl, show p8.max_task_util = (4 / 5 : ℝ) from rfl]
      norm_num),
    if_neg (by rw [retry8]; norm_num), retry8,
    show p8.num_tasks = 2 from rfl, show List.range 2 = [0, 1] from rfl]
  simp only [List.map_cons, List.map_nil]
  rw [show ([(1 / 4000 : ℝ), 1 / 4000].getD 0 0) = (1 : ℝ) / 4000 from rfl,
    show ([(1 / 4000 : ℝ), 1 / 4000].getD 1 0) = (1 : ℝ) / 4000 from rfl,
    show s8 (1 + 0) = (1 / 2 : ℝ) from rfl,
    show s8 (1 + 1) = (1 / 2 : ℝ) from rfl, build8]

/-- C1: for every task count `n ≥ 1` and total utilization `U > 0`, with
every draw in `[0, 1)`, the UUniFast sampler returns an ordered sequence of
exactly `n` non-negative values whose sum equals `U` exactly in real
arithmetic, following the recurrence `s_next = s * r^(1/(n-i))`. -/
theorem uunifast_simplex (n : ℕ) (u_total : ℝ) (d : ℕ → ℝ)
    (hn : 1 ≤ n) (hU : 0 < u_total) (hd : ∀ j, 0 ≤ d j ∧ d j < 1) :
    (uunifast n u_total d).length = n ∧
    (∀ u ∈ uunifast n u_total d, 0 ≤ u) ∧
    (uunifast n u_total d).sum = u_total :=
  ⟨uunifast_length n u_total d hn,
   uunifast_nonneg n u_total d (fun j => ⟨(hd j).1, le_of_lt (hd j).2⟩) (le_of_lt hU),
   uunifast_sum n u_total d⟩

/-- Witness for C1 at `n = 2`, `U = 1`, constant draw `1/2`. -/
theorem uunifast_simplex_witness :
    (1 ≤ 2 ∧ (0 : ℝ) < 1 ∧
      (∀ j : ℕ, 0 ≤ ((fun _ : ℕ => (1 : ℝ) / 2) j) ∧ ((fun _ : ℕ => (1 : ℝ) / 2) j) < 1)) ∧
    ((uunifast 2 1 (fun _ => (1 : ℝ) / 2)).length = 2 ∧
     (∀ u ∈ uunifast 2 1 (fun _ => (1 : ℝ) / 2), 0 ≤ u) ∧
     (uunifast 2 1 (fun _ => (1 : ℝ) / 2)).sum = 1) :=
  ⟨⟨by norm_num, by norm_num, fun j => by norm_num⟩,
   uunifast_simplex 2 1 (fun _ => (1 : ℝ) / 2) (by norm_num) (by norm_num)
     (fun j => by norm_num)⟩

/-- C2: on every successful run, each component of the utilization vector
accepted by the rejection loop — the vector the taskset is built from — is
`≤ max_task_util`, and the emitted tasks are built precisely from that
vector (no other, partial vector escapes). -/
theorem generate_taskset_ceiling (p : GenParams) (s : ℕ → ℝ) (tasks : List TaskConfig)
    (h : (generate_taskset p s).1 = .ok tasks) :
    (∀ u ∈ (retryResult p s).2.2, u ≤ p.max_task_util) ∧
    tasks = (List.range p.num_tasks).map fun i =>
      buildTask p ((retryResult p s).2.2.getD i 0) (s ((retryResult p s).2.1 + i)) :=
  ⟨retryLoop_ok_utils p.num_tasks p.total_utilization p.max_task_util s 0 0,
   (gen_ok_shape p s tasks h).2.2⟩

/-- Witness for C2 at the concrete successful run `pW`, `sW`. -/
theorem generate_taskset_ceiling_witness :
    (generate_taskset pW sW).1 = .ok [tW] ∧
    (∀ u ∈ (retryResult pW sW).2.2, u ≤ pW.max_task_util) :=
  ⟨by rw [genW], (generate_taskset_ceiling pW sW [tW] (by rw [genW])).1⟩

/-- C3: whenever `total_utilization / num_tasks > max_task_util`, generation
fails immediately with the infeasible-constraint error and consumes zero
random draws, for every draw stream (so no call to the sampler occurs). -/
theorem generate_taskset_infeasible (p : GenParams) (s : ℕ → ℝ)
    (h : p.total_utilization / (p.num_tasks : ℝ) > p.max_task_util) :
    generate_taskset p s = (.error .infeasible, 0) := by
  rw [generate_taskset, if_pos h]

/-- Inputs matching the spec's infeasibility example: five tasks with total
utilization `4.5` against a ceiling of `0.8` (`4.5 / 5 = 0.9 > 0.8`). -/
noncomputable def p3 : GenParams :=
  { pW with num_tasks := 5, total_utilization := 9 / 2 }

/-- Witness for C3 at the spec's example `n = 5`, `U = 4.5`, ceiling `0.8`. -/
theorem generate_taskset_infeasible_witness :
    p3.total_utilization / (p3.num_tasks : ℝ) > p3.max_task_util ∧
    generate_taskset p3 sW = (.error .infeasible, 0) :=
  ⟨by
    rw [show p3.total_utilization = (9 / 2 : ℝ) from rfl,
      show p3.num_tasks = 5 from rfl, show p3.max_task_util = (4 / 5 : ℝ) from rfl]
    norm_num,
   generate_taskset_infeasible p3 sW (by
    rw [show p3.total_utilization = (9 / 2 : ℝ) from rfl,
      show p3.num_tasks = 5 from rfl, show p3.max_task_util = (4 / 5 : ℝ) from rfl]
    norm_num)⟩

/-- C4 (code-bug evidence, refuting acceptance at the cap): with `pBad` and
stream `sBad`, the first 999 UUniFast vectors violate the ceiling while the
vector drawn at attempt 1000 — read from stream position 999 — satisfies it,
yet `generate_taskset` discards that valid vector and reports the
retry-exhaustion failure, because the post-loop check `attempts >=
max_attempts` cannot distinguish a break on the 1000th attempt from
exhaustion. -/
theorem generate_taskset_cap_boundary :
    (∀ u ∈ uunifast 2 1 (fun i => sBad (999 + i - 1)), u ≤ pBad.max_task_util) ∧
    generate_taskset pBad sBad = (.error .exhausted, 1000) := by
  constructor
  · have hu : uunifast 2 1 (fun i => sBad (999 + i - 1)) = [(1 / 2 : ℝ), 1 / 2] := by
      simp only [uunifast_two, sBad]
      rw [if_neg (by norm_num)]
      norm_num
    rw [hu, show pBad.max_task_util = (4 / 5 : ℝ) from rfl]
    intro u hu2
    rcases List.mem_cons.mp hu2 with h | h
    · rw [h]; norm_num
    · rw [List.mem_singleton] at h; rw [h]; norm_num
  · rw [generate_taskset,
      if_neg (by
        rw [show pBad.total_utilization = (1 : ℝ) from rfl,
          show pBad.num_tasks = 2 from rfl,
          show pBad.max_task_util = (4 / 5 : ℝ) from rfl]
        norm_num),
      if_pos (by rw [retryResultBad])]
    rw [retryResultBad]

/-- C5: generation is a deterministic function of the inputs and of the
stream prefix it consumes (same seed ⇒ same stream ⇒ identical utilization
vector and identical taskset), and randomness is consumed in the fixed
order: on success the loop made `A` attempts consuming the first
`A * (n - 1)` stream positions for utilization draws, after which task `i`'s
period draw is read at position `A * (n - 1) + i`, in index order. -/
theorem generate_taskset_deterministic (p : GenParams) (s1 s2 : ℕ → ℝ)
    (hagree : ∀ j, j < (generate_taskset p s1).2 → s1 j = s2 j) :
    generate_taskset p s1 = generate_taskset p s2 ∧
    (∀ tasks, (generate_taskset p s1).1 = .ok tasks →
      ∃ A utils, A < 1000 ∧
        retryResult p s1 = (A, A * (p.num_tasks - 1), utils) ∧
        (generate_taskset p s1).2 = A * (p.num_tasks - 1) + p.num_tasks ∧
        tasks = (List.range p.num_tasks).map fun i =>
          buildTask p (utils.getD i 0) (s1 (A * (p.num_tasks - 1) + i))) := by
  have hpart2 : ∀ tasks, (generate_taskset p s1).1 = .ok tasks →
      ∃ A utils, A < 1000 ∧
        retryResult p s1 = (A, A * (p.num_tasks - 1), utils) ∧
        (generate_taskset p s1).2 = A * (p.num_tasks - 1) + p.num_tasks ∧
        tasks = (List.range p.num_tasks).map fun i =>
          buildTask p (utils.getD i 0) (s1 (A * (p.num_tasks - 1) + i)) := by
    intro tasks h
    obtain ⟨hlt, hcount, htasks⟩ := gen_ok_shape p s1 tasks h
    obtain ⟨A, utils, hshape⟩ := retryResult_shape p s1
    rw [hshape] at hlt
    refine ⟨A, utils, hlt, hshape, ?_, ?_⟩
    · rw [hcount, hshape]
    · rw [htasks, hshape]
  have hcong : generate_taskset p s1 = generate_taskset p s2 := by
    by_cases h1 : p.total_utilization / (p.num_tasks : ℝ) > p.max_task_util
    · rw [generate_taskset, if_pos h1, generate_taskset, if_pos h1]
    · have hretry : retryResult p s1 = retryResult p s2 := by
        apply retryLoop_congr_aux p.num_tasks p.total_utilization p.max_task_util s1 s2
          1000 0 0 (by omega)
        intro j hj
        apply hagree
        rw [generate_taskset, if_neg h1]
        by_cases h2 : 1000 ≤ (retryResult p s1).1
        · rw [if_pos h2]
          exact hj
        · rw [if_neg h2]
          exact lt_of_lt_of_le hj (Nat.le_add_right _ _)
      by_cases h2 : 1000 ≤ (retryResult p s1).1
      · rw [generate_taskset, if_neg h1, if_pos h2, generate_taskset, if_neg h1,
          if_pos (hretry ▸ h2), hretry]
      · have hcount : (generate_taskset p s1).2 =
            (retryResult p s1).2.1 + p.num_tasks := by
          rw [generate_taskset, if_neg h1, if_neg h2]
        rw [generate_taskset, if_neg h1, if_neg h2, generate_taskset, if_neg h1,
          if_neg (hretry ▸ h2)]
        rw [Prod.mk.injEq]
        constructor
        · rw [← hretry]
          apply congrArg
          apply List.map_congr_left
          intro i hi
          rw [List.mem_range] at hi
          have hs : s1 ((retryResult p s1).2.1 + i) =
              s2 ((retryResult p s1).2.1 + i) := by
            apply hagree
            rw [hcount]
            omega
          rw [hs]
        · rw [hretry]
  exact ⟨hcong, hpart2⟩

/-- A stream agreeing with `sW` on the single consumed position and
differing everywhere after it. -/
noncomputable def sW2 : ℕ → ℝ := fun j => if j = 0 then 0 else 1

/-- Witness for C5: the run on `pW` consumes one draw, and any stream
agreeing with `sW` on that prefix yields the identical output. -/
theorem generate_taskset_deterministic_witness :
    (∀ j, j < (generate_taskset pW sW).2 → sW j = sW2 j) ∧
    generate_taskset pW sW = generate_taskset pW sW2 := by
  have hag : ∀ j, j < (generate_taskset pW sW).2 → sW j = sW2 j := by
    intro j hj
    rw [genW] at hj
    have hj' : j < 1 := hj
    have hj0 : j = 0 := by omega
    rw [hj0]
    rfl
  exact ⟨hag, (generate_taskset_deterministic pW sW sW2 hag).1⟩

lemma buildTask_runtime_eq (p : GenParams) (u r : ℝ) :
    (buildTask p u r).dl_runtime = ⌊u * ((buildTask p u r).dl_period : ℝ)⌋ := rfl

/-- C6: for every generated task, the emitted `dl-runtime` equals
`⌊u_i * period_i⌋` — an integer (type `ℤ`) number of microseconds — where
`u_i` is the i-th component of the accepted utilization vector and
`period_i` the task's emitted period in microseconds. -/
theorem generate_taskset_runtime_floor (p : GenParams) (s : ℕ → ℝ)
    (tasks : List TaskConfig) (h : (generate_taskset p s).1 = .ok tasks)
    (i : ℕ) (hi : i < tasks.length) :
    (tasks.get ⟨i, hi⟩).dl_runtime =
      ⌊((retryResult p s).2.2.getD i 0) * ((tasks.get ⟨i, hi⟩).dl_period : ℝ)⌋ := by
  obtain ⟨-, -, htasks⟩ := gen_ok_shape p s tasks h
  subst htasks
  have hget : (((List.range p.num_tasks).map fun i =>
        buildTask p ((retryResult p s).2.2.getD i 0)
          (s ((retryResult p s).2.1 + i))).get ⟨i, hi⟩) =
      buildTask p ((retryResult p s).2.2.getD i 0) (s ((retryResult p s).2.1 + i)) := by
    rw [List.get_eq_getElem, List.getElem_map, List.getElem_range]
  rw [hget, buildTask_runtime_eq]

/-- Witness for C6 at the concrete run `pW`, `sW`: `5000 = ⌊(1/2)·10000⌋`. -/
theorem generate_taskset_runtime_floor_witness :
    ((generate_taskset pW sW).1 = .ok [tW] ∧ 0 < [tW].length) ∧
    ([tW].get ⟨0, by simp⟩).dl_runtime =
      ⌊((retryResult pW sW).2.2.getD 0 0) * (([tW].get ⟨0, by simp⟩).dl_period : ℝ)⌋ :=
  ⟨⟨by rw [genW], by simp⟩,
   generate_taskset_runtime_floor pW sW [tW] (by rw [genW]) 0 (by simp)⟩

lemma adjust_cases (raw v : ℤ) (h : (if raw < 10 then (10 : ℤ) else raw) = v) :
    v = (if raw < 10 then (10 : ℤ) else raw) ∧ (10 : ℤ) ≤ v := by
  refine ⟨h.symm, ?_⟩
  rw [← h]
  split_ifs with hr
  · exact le_refl 10
  · omega

lemma buildTask_adjust (p : GenParams) (u r : ℝ) (v : ℤ)
    (hv : (buildTask p u r).phase_run = some v ∨ (buildTask p u r).phase_runtime = some v) :
    v = (if ⌊((buildTask p u r).dl_runtime : ℝ) * (1 - p.system_overhead)⌋ < 10 then 10
         else ⌊((buildTask p u r).dl_runtime : ℝ) * (1 - p.system_overhead)⌋) ∧
    (10 : ℤ) ≤ v := by
  simp only [buildTask] at hv ⊢
  rcases hv with hv | hv
  · by_cases he : p.event_type = "run"
    · rw [if_pos he] at hv
      exact adjust_cases _ v (Option.some.inj hv)
    · rw [if_neg he] at hv
      exact absurd hv (by simp)
  · by_cases he : p.event_type = "run"
    · rw [if_pos he] at hv
      exact absurd hv (by simp)
    · rw [if_neg he] at hv
      by_cases he2 : p.event_type = "runtime"
      · rw [if_pos he2] at hv
        exact adjust_cases _ v (Option.some.inj hv)
      · rw [if_neg he2] at hv
        exact adjust_cases _ v (Option.some.inj hv)

lemma jsonTask_adjust (ov : ℝ) (e : String) (line : ℝ × ℝ × ℝ) (v : ℤ)
    (hv : (jsonTask ov e line).phase_run = some v ∨
          (jsonTask ov e line).phase_runtime = some v) :
    v = (if ⌊(jsonTask ov e line).dl_runtime * (1 - ov)⌋ < 10 then 10
         else ⌊(jsonTask ov e line).dl_runtime * (1 - ov)⌋) ∧
    (10 : ℤ) ≤ v := by
  simp only [jsonTask] at hv ⊢
  rcases hv with hv | hv
  · by_cases he : e = "run"
    · rw [if_pos he] at hv
      exact adjust_cases _ v (Option.some.inj hv)
    · rw [if_neg he] at hv
      exact absurd hv (by simp)
  · by_cases he : e = "run"
    · rw [if_pos he] at hv
      exact absurd hv (by simp)
    · rw [if_neg he] at hv
      by_cases he2 : e = "runtime"
      · rw [if_pos he2] at hv
        exact adjust_cases _ v (Option.some.inj hv)
      · rw [if_neg he2] at hv
        exact adjust_cases _ v (Option.some.inj hv)

/-- C7: for every task emitted by either generator, the workload-event
value (the `"run"` or `"runtime"` entry) equals
`⌊computation_time * (1 - system_overhead)⌋` when that floor is at least
10, and equals exactly 10 when the floor is below 10; it is never below
10. -/
theorem emitted_runtime_adjustment :
    (∀ (p : GenParams) (s : ℕ → ℝ) (tasks : List TaskConfig),
      (generate_taskset p s).1 = .ok tasks → ∀ t ∈ tasks, ∀ v : ℤ,
        (t.phase_run = some v ∨ t.phase_runtime = some v) →
        (v = (if ⌊(t.dl_runtime : ℝ) * (1 - p.system_overhead)⌋ < 10 then 10
              else ⌊(t.dl_runtime : ℝ) * (1 - p.system_overhead)⌋) ∧
         (10 : ℤ) ≤ v)) ∧
    (∀ (ts : List (ℝ × ℝ × ℝ)) (ov : ℝ) (e : String) (t : JTaskConfig),
      t ∈ generate_json ts ov e → ∀ v : ℤ,
        (t.phase_run = some v ∨ t.phase_runtime = some v) →
        (v = (if ⌊t.dl_runtime * (1 - ov)⌋ < 10 then 10
              else ⌊t.dl_runtime * (1 - ov)⌋) ∧
         (10 : ℤ) ≤ v)) := by
  constructor
  · intro p s tasks h t ht v hv
    obtain ⟨-, -, htasks⟩ := gen_ok_shape p s tasks h
    subst htasks
    rw [List.mem_map] at ht
    obtain ⟨i, -, hbt⟩ := ht
    subst hbt
    exact buildTask_adjust p _ _ v hv
  · intro ts ov e t ht v hv
    rw [generate_json, List.mem_map] at ht
    obtain ⟨line, -, hjt⟩ := ht
    subst hjt
    exact jsonTask_adjust ov e line v hv

/-- Witness for C7 at the concrete run `pW`, `sW`:
`4900 = ⌊5000 * (1 - 0.02)⌋ ≥ 10`. -/
theorem emitted_runtime_adjustment_witness :
    ((generate_taskset pW sW).1 = .ok [tW] ∧ tW ∈ [tW] ∧
      tW.phase_runtime = some 4900) ∧
    ((4900 : ℤ) = (if ⌊(tW.dl_runtime : ℝ) * (1 - pW.system_overhead)⌋ < 10 then 10
        else ⌊(tW.dl_runtime : ℝ) * (1 - pW.system_overhead)⌋) ∧
     (10 : ℤ) ≤ 4900) :=
  ⟨⟨by rw [genW], by simp, rfl⟩,
   emitted_runtime_adjustment.1 pW sW [tW] (by rw [genW]) tW (by simp) 4900 (Or.inr rfl)⟩

/-- C8 counterexample: a successful generation run (inputs `p8`, stream
`s8`) emits a task whose `dl-runtime` (the emitted computation time) is 0 —
not a positive value — because `floor(u * period)` truncates a product below
1 to 0 and the 10 µs floor is applied only to the workload-event runtime. -/
theorem taskspec_positive_cex :
    (generate_taskset p8 s8).1 = .ok [t8, t8] ∧
    t8 ∈ [t8, t8] ∧ ¬ (0 < t8.dl_runtime) := by
  refine ⟨by rw [gen8], by simp, ?_⟩
  rw [show t8.dl_runtime = 0 from rfl]
  omega

/-- C8 (amended): every emitted task of every successful run has a
non-negative integer `dl-runtime`, a positive integer period (microseconds),
and a deadline equal to its period (implicit-deadline model), given draws in
`[0, 1)`, a non-negative total utilization and a positive minimum period. -/
theorem taskspec_invariant (p : GenParams) (s : ℕ → ℝ) (tasks : List TaskConfig)
    (hs : ∀ j, 0 ≤ s j ∧ s j < 1) (hU : 0 ≤ p.total_utilization)
    (hmin : 1 ≤ p.period_min_ms) (h : (generate_taskset p s).1 = .ok tasks) :
    ∀ t ∈ tasks, 0 ≤ t.dl_runtime ∧ 0 < t.dl_period ∧ t.dl_deadline = t.dl_period := by
  obtain ⟨hlt, -, htasks⟩ := gen_ok_shape p s tasks h
  subst htasks
  intro t ht
  rw [List.mem_map] at ht
  obtain ⟨i, -, hbt⟩ := ht
  subst hbt
  have hutils : ∀ u ∈ (retryResult p s).2.2, 0 ≤ u := by
    obtain ⟨q, -, hsrc⟩ := retryLoop_src_aux p.num_tasks p.total_utilization
      p.max_task_util s 1000 0 0 (by omega) hlt
    rw [retryResult, hsrc]
    exact uunifast_nonneg _ _ _ (fun j => ⟨(hs _).1, le_of_lt (hs _).2⟩) hU
  have hu0 : 0 ≤ (retryResult p s).2.2.getD i 0 := by
    by_cases hlen : i < (retryResult p s).2.2.length
    · rw [List.getD_eq_getElem _ _ hlen]
      exact hutils _ (List.getElem_mem hlen)
    · rw [List.getD_eq_default _ _ (by omega)]
  refine ⟨?_, ?_, rfl⟩
  · rw [buildTask_runtime_eq]
    exact Int.floor_nonneg.mpr (mul_nonneg hu0 (Nat.cast_nonneg _))
  · show 0 < randint p.period_min_ms p.period_max_ms
      (s ((retryResult p s).2.1 + i)) * 1000
    have h1 : p.period_min_ms ≤ randint p.period_min_ms p.period_max_ms
        (s ((retryResult p s).2.1 + i)) := Nat.le_add_right _ _
    omega

/-- Witness for the amended C8 at the concrete run `pW`, `sW`. -/
theorem taskspec_invariant_witness :
    ((∀ j : ℕ, 0 ≤ sW j ∧ sW j < 1) ∧ (0 : ℝ) ≤ pW.total_utilization ∧
      1 ≤ pW.period_min_ms ∧ (generate_taskset pW sW).1 = .ok [tW] ∧ tW ∈ [tW]) ∧
    (0 ≤ tW.dl_runtime ∧ 0 < tW.dl_period ∧ tW.dl_deadline = tW.dl_period) :=
  ⟨⟨fun j => ⟨le_refl 0, by norm_num [sW]⟩,
    by rw [show pW.total_utilization = (1 / 2 : ℝ) from rfl]; norm_num,
    by rw [show pW.period_min_ms = 10 from rfl]; omega,
    by rw [genW], by simp⟩,
   taskspec_invariant pW sW [tW]
     (fun j => ⟨le_refl 0, by norm_num [sW]⟩)
     (by rw [show pW.total_utilization = (1 / 2 : ℝ) from rfl]; norm_num)
     (by rw [show pW.period_min_ms = 10 from rfl]; omega)
     (by rw [genW]) tW (by simp)⟩

/-- C9 counterexample: a configured `period_distribution` equal to the
literal string `"uniform"` is NOT accepted — the code compares against the
literal `"unif"` (`generate_taskset.py`, line 293) — so a run configured
with `"uniform"` is rejected as an unsupported distribution. -/
theorem period_distribution_uniform_cex :
    mainRun "uniform" 1 pW sW = (.error .unsupportedDistribution, 0) := by
  rw [mainRun, if_pos (by decide)]

/-- C9 (amended): the literal `"unif"` is the accepted period distribution;
any other value (including `"uniform"`) is rejected, as is any granularity
other than 1, before any sampling occurs (zero draws consumed). -/
theorem period_validation (dist : String) (gran : ℤ) (p : GenParams) (s : ℕ → ℝ) :
    (dist ≠ "unif" → mainRun dist gran p s = (.error .unsupportedDistribution, 0)) ∧
    (dist = "unif" → gran ≠ 1 →
      mainRun dist gran p s = (.error .unsupportedGranularity, 0)) ∧
    (dist = "unif" → gran = 1 →
      mainRun dist gran p s =
        (match generate_taskset p s with
         | (.error e, k) => (.error (.genFailed e), k)
         | (.ok ts, k) => (.ok ts, k))) := by
  refine ⟨?_, ?_, ?_⟩
  · intro hd
    rw [mainRun, if_pos hd]
  · intro hd hg
    rw [mainRun, if_neg (not_not.mpr hd), if_pos hg]
  · intro hd hg
    rw [mainRun, if_neg (not_not.mpr hd), if_neg (not_not.mpr hg)]

/-- Witness for the amended C9: `"logunif"` is rejected before sampling. -/
theorem period_validation_witness :
    (("logunif" : String) ≠ "unif") ∧
    mainRun "logunif" 1 pW sW = (.error .unsupportedDistribution, 0) :=
  ⟨by decide, (period_validation "logunif" 1 pW sW).1 (by decide)⟩

lemma withEvent_num_tasks (p : GenParams) (e : String) :
    ({ p with event_type := e } : GenParams).num_tasks = p.num_tasks := rfl

lemma withEvent_total_utilization (p : GenParams) (e : String) :
    ({ p with event_type := e } : GenParams).total_utilization =
      p.total_utilization := rfl

lemma withEvent_max_task_util (p : GenParams) (e : String) :
    ({ p with event_type := e } : GenParams).max_task_util = p.max_task_util := rfl

lemma buildTask_event_congr (p : GenParams) (e : String)
    (h1 : e ≠ "run") (h2 : e ≠ "runtime") (u r : ℝ) :
    buildTask { p with event_type := e } u r =
      buildTask { p with event_type := "runtime" } u r := by
  simp only [buildTask, h1, h2, if_false,
    show (("runtime" : String) = "run") = False from eq_false (by decide),
    show (("runtime" : String) = "runtime") = True from eq_true rfl, if_true]

lemma jsonTask_event_congr (ov : ℝ) (e : String)
    (h1 : e ≠ "run") (h2 : e ≠ "runtime") (line : ℝ × ℝ × ℝ) :
    jsonTask ov e line = jsonTask ov "runtime" line := by
  simp only [jsonTask, h1, h2, if_false,
    show (("runtime" : String) = "run") = False from eq_false (by decide),
    show (("runtime" : String) = "runtime") = True from eq_true rfl, if_true]

lemma buildTask_runtime_event (p : GenParams) (u r : ℝ)
    (h1 : p.event_type ≠ "run") :
    (buildTask p u r).phase_run = none ∧
    ∃ v, (buildTask p u r).phase_runtime = some v := by
  constructor
  · simp only [buildTask]
    rw [if_neg h1]
  · by_cases h2 : p.event_type = "runtime"
    · exact ⟨_, by simp only [buildTask]; rw [if_neg h1, if_pos h2]⟩
    · exact ⟨_, by simp only [buildTask]; rw [if_neg h1, if_neg h2]⟩

/-- C10: for every `event_type` other than `"run"` and `"runtime"`, both
generators behave exactly as if `event_type` had been `"runtime"` — they do
not fail, and every emitted task carries a `"runtime"` workload event and no
`"run"` event; the unrecognized kind is never reported as an error at this
interface. -/
theorem event_type_fallback (e : String) (h1 : e ≠ "run") (h2 : e ≠ "runtime") :
    (∀ (p : GenParams) (s : ℕ → ℝ),
      generate_taskset { p with event_type := e } s =
        generate_taskset { p with event_type := "runtime" } s) ∧
    (∀ (p : GenParams) (s : ℕ → ℝ) (tasks : List TaskConfig),
      (generate_taskset { p with event_type := e } s).1 = .ok tasks →
      ∀ t ∈ tasks, t.phase_run = none ∧ ∃ v, t.phase_runtime = some v) ∧
    (∀ (ts : List (ℝ × ℝ × ℝ)) (ov : ℝ),
      generate_json ts ov e = generate_json ts ov "runtime") := by
  refine ⟨?_, ?_, ?_⟩
  · intro p s
    have hretry : retryResult { p with event_type := e } s =
        retryResult { p with event_type := "runtime" } s := rfl
    rw [generate_taskset, generate_taskset]
    simp only [withEvent_num_tasks, withEvent_total_utilization,
      withEvent_max_task_util, hretry, buildTask_event_congr p e h1 h2]
  · intro p s tasks h t ht
    obtain ⟨-, -, htasks⟩ := gen_ok_shape _ s tasks h
    subst htasks
    rw [List.mem_map] at ht
    obtain ⟨i, -, hbt⟩ := ht
    subst hbt
    exact buildTask_runtime_event _ _ _ h1
  · intro ts ov
    rw [generate_json, generate_json]
    exact List.map_congr_left fun line _ => jsonTask_event_congr ov e h1 h2 line

/-- Witness for C10 at the unrecognized kind `"foo"` on the concrete run
`pW`, `sW`. -/
theorem event_type_fallback_witness :
    (("foo" : String) ≠ "run" ∧ ("foo" : String) ≠ "runtime") ∧
    generate_taskset { pW with event_type := "foo" } sW =
      generate_taskset { pW with event_type := "runtime" } sW :=
  ⟨⟨by decide, by decide⟩,
   (event_type_fallback "foo" (by decide) (by decide)).1 pW sW⟩

end RTAudit
